import Mathlib

/-!
Verification of the KIOSQUE DU PARC authentication and session-management
subsystem (backend/app/auth.py, backend/app/routers/admin.py,
backend/app/settings.py) against its specification.

Strings from the Python code are embedded as `List Char`. The two external
libraries the code calls (the bcrypt password hasher and the itsdangerous
URLSafeTimedSerializer) are not part of the repository source; they are
modelled from the specification, parameterised by the underlying keyed
primitives (`digest` for the bcrypt core, `mac` for the HMAC over the
server secret). Time is threaded explicitly: issuance and verification
each receive the current UNIX timestamp as a `Nat` parameter.
-/

/-- settings.py line 20: ADMIN_SESSION_EXPIRE_MINUTES, default 480 (8 hours). -/
def ADMIN_SESSION_EXPIRE_MINUTES : Nat := 480

/-- auth.py line 18: the fixed session cookie name. -/
def SESSION_COOKIE_NAME : List Char := ("kdp_admin_session").data

/-- models.py: the Admin row (id, username, password_hash, is_active). -/
structure Admin where
  id : Nat
  username : List Char
  password_hash : List Char
  is_active : Bool
deriving DecidableEq, Repr

/-- The session payload dict {admin_id, username} built in create_session_token. -/
structure SessionData where
  admin_id : Nat
  username : List Char
deriving DecidableEq, Repr

/- ## Password hasher (modelled from the spec) -/

/-- Modelled from the spec: the bcrypt library called by auth.py is not part
of the repository source. Per spec section 4.1 a stored hash embeds the salt;
we model the wire format as a dollar sign, then the salt, then a dollar sign,
then the digest of (salt, password). This splits a hash body at its first
dollar sign, returning the salt and the digest part, or none when the shape
is malformed. -/
def splitFirstDollar : List Char → Option (List Char × List Char)
  | [] => none
  | c :: cs =>
    if c = '$' then some ([], cs)
    else
      match splitFirstDollar cs with
      | some (a, b) => some (c :: a, b)
      | none => none

/-- Modelled from the spec: shape check and decomposition of a stored hash
string into (salt, digest). A string not of the form dollar-salt-dollar-digest
is malformed and yields none. -/
def parseBcryptHash (h : List Char) : Option (List Char × List Char) :=
  match h with
  | c :: rest => if c = '$' then splitFirstDollar rest else none
  | [] => none

/-- Modelled from the spec: bcrypt.hashpw — the salt (random in the real
library, hence an explicit parameter here) is embedded in the produced hash
string, followed by the digest of (salt, password). -/
def hashpw (digest : List Char → List Char → List Char)
    (salt password : List Char) : List Char :=
  '$' :: salt ++ '$' :: digest salt password

/-- Modelled from the spec: bcrypt.checkpw — per spec section 4.1, verify
"recomputes the hash using the salt embedded in hash_string and compares",
and "returns false for malformed hash strings rather than raising"; the
model is a total Bool-valued function, so no exception is representable and
a malformed hash yields false by the first match arm. -/
def checkpw (digest : List Char → List Char → List Char)
    (password hashed : List Char) : Bool :=
  match parseBcryptHash hashed with
  | none => false
  | some (salt, dg) => digest salt password = dg

/-- auth.py lines 29-33: verify_password delegates to bcrypt.checkpw on the
utf-8 encodings of its two arguments. -/
def verify_password (digest : List Char → List Char → List Char)
    (plain_password hashed_password : List Char) : Bool :=
  checkpw digest plain_password hashed_password

/- ## Session token codec (modelled from the spec) -/

/-- The separator between the signed value and the signature. -/
def SEP : Char := '.'

/-- Unary numeral over the letter I, used by the payload serialisation. -/
def unary (n : Nat) : List Char := List.replicate n 'I'

/-- Serialises a string character by character: each character becomes the
unary numeral of its code point followed by a c marker. The output alphabet
is {I, c}, in particular dot-free. -/
def encodeStr : List Char → List Char
  | [] => []
  | c :: cs => unary c.toNat ++ 'c' :: encodeStr cs

/-- Modelled from the spec: the serialised signing value of the itsdangerous
codec — per spec section 4.2, issue "serializes {admin_id, username}, appends
current timestamp". The admin id in unary, a u marker, the username, a t
marker, the timestamp in unary; the output alphabet is {I, u, c, t}, hence
dot-free, so the dot separating value from signature is unambiguous. -/
def encodePayload (d : SessionData) (ts : Nat) : List Char :=
  unary d.admin_id ++ 'u' :: encodeStr d.username ++ 't' :: unary ts

/-- Consumes a leading run of I characters, returning its length and the rest. -/
def takeUnary : List Char → Nat × List Char
  | [] => (0, [])
  | c :: rest =>
    if c = 'I' then ((takeUnary rest).1 + 1, (takeUnary rest).2)
    else (0, c :: rest)

/-- Parses the character groups of `encodeStr` up to the t marker; fuel-indexed
to make the recursion structural. -/
def parseStrAux : Nat → List Char → Option (List Char × List Char)
  | _, [] => none
  | fuel + 1, cs =>
    let p := takeUnary cs
    match p.2 with
    | c :: r =>
      if c = 'c' then
        match parseStrAux fuel r with
        | some (s, rest) => some (Char.ofNat p.1 :: s, rest)
        | none => none
      else if c = 't' then
        if p.1 = 0 then some ([], r) else none
      else none
    | [] => none
  | 0, _ => none

/-- Inverse of `encodePayload`: recovers the session data and the issuance
timestamp, or none when the value does not decode. -/
def parsePayload (v : List Char) : Option (SessionData × Nat) :=
  let p := takeUnary v
  match p.2 with
  | c :: r =>
    if c = 'u' then
      match parseStrAux (r.length + 1) r with
      | some (uname, rest) =>
        let q := takeUnary rest
        if q.2 = [] then some (⟨p.1, uname⟩, q.1) else none
      | none => none
    else none
  | [] => none

/-- Splits a string at its last dot into (value, signature); none when the
string contains no dot. -/
def rsplitSep : List Char → Option (List Char × List Char)
  | [] => none
  | c :: cs =>
    match rsplitSep cs with
    | some (v, g) => some (c :: v, g)
    | none => if c = SEP then some ([], cs) else none

/-- auth.py lines 36-39: create_session_token builds the dict
{admin_id, username} and signs it. Modelled from the spec for the
itsdangerous serializer: the token is the serialised value, a dot, then the
mac of the value (the mac stands for HMAC keyed with SECRET_KEY). -/
def create_session_token (mac : List Char → List Char)
    (admin_id : Nat) (username : List Char) (now : Nat) : List Char :=
  let value := encodePayload ⟨admin_id, username⟩ now
  value ++ SEP :: mac value

/-- The internal outcome of token verification, distinguishing the two
failure kinds of spec section 4.2. -/
inductive VerifyResult where
  | ok (data : SessionData)
  | badSignature
  | expired
deriving DecidableEq, Repr

/-- Modelled from the spec: itsdangerous loads with max_age — per spec
section 4.2 it decodes the string, recomputes the signature over the
recovered payload, fails with BadSignature if the recomputed signature does
not match (covering corruption, forgery and undecodable values), then fails
with Expired if current_time minus issuance_time exceeds max_age_seconds,
otherwise returns the payload. Signature is checked before the timestamp is
trusted, per the spec design rationale. -/
def verifyToken (mac : List Char → List Char) (max_age : Nat)
    (token : List Char) (now : Nat) : VerifyResult :=
  match rsplitSep token with
  | none => .badSignature
  | some (value, sig) =>
    if sig = mac value then
      match parsePayload value with
      | none => .badSignature
      | some (d, ts) =>
        if now - ts > max_age then .expired else .ok d
    else .badSignature

/-- auth.py line 48: the max_age passed to serializer.loads. -/
def sessionTokenMaxAge : Nat := ADMIN_SESSION_EXPIRE_MINUTES * 60

/-- auth.py lines 42-52: verify_session_token catches both BadSignature and
SignatureExpired and collapses them to None. -/
def verify_session_token (mac : List Char → List Char)
    (token : List Char) (now : Nat) : Option SessionData :=
  match verifyToken mac sessionTokenMaxAge token now with
  | .ok d => some d
  | .badSignature => none
  | .expired => none

/- ## Credential store and login (auth.py, crud.py) -/

/-- crud.py get_admin_by_username / the query in authenticate_admin:
first admin row whose username equals the given one. -/
def findAdmin (db : List Admin) (u : List Char) : Option Admin :=
  db.find? (fun a => a.username = u)

/-- auth.py lines 55-67: authenticate_admin — unknown username, inactive
admin, and password mismatch each yield None; otherwise the Admin row. -/
def authenticate_admin (digest : List Char → List Char → List Char)
    (db : List Admin) (username password : List Char) : Option Admin :=
  match findAdmin db username with
  | none => none
  | some admin =>
    if !admin.is_active then none
    else if !(verify_password digest password admin.password_hash) then none
    else some admin

/- ## Guard and cookie manager (auth.py) -/

/-- The cookie jar of an incoming request: name-value pairs. -/
structure Request where
  cookies : List (List Char × List Char)
deriving Repr

/-- request.cookies.get(name): first cookie with the given name, if any. -/
def cookiesGet (cookies : List (List Char × List Char)) (name : List Char) :
    Option (List Char) :=
  match cookies.find? (fun p => p.1 = name) with
  | some p => some p.2
  | none => none

/-- auth.py lines 70-78: get_current_admin — returns None when the cookie is
absent or its value is empty (Python falsiness of the empty string), else
defers to verify_session_token. -/
def get_current_admin (mac : List Char → List Char)
    (req : Request) (now : Nat) : Option SessionData :=
  match cookiesGet req.cookies SESSION_COOKIE_NAME with
  | none => none
  | some token =>
    if token = [] then none else verify_session_token mac token now

/-- The guard decision: either a 303 redirect to the login page, or the
session data of the authenticated admin. -/
inductive AuthOutcome where
  | denied (status : Nat) (location : List Char)
  | allowed (data : SessionData)
deriving DecidableEq, Repr

/-- The redirect target raised by the guard. -/
def LOGIN_URL : List Char := ("/admin/login").data

/-- auth.py lines 81-93 and routers/admin.py lines 33-38: require_admin /
admin_required — raise HTTPException(303, Location=/admin/login) when
get_current_admin yields None, else return the session data. -/
def require_admin (mac : List Char → List Char)
    (req : Request) (now : Nat) : AuthOutcome :=
  match get_current_admin mac req now with
  | none => .denied 303 LOGIN_URL
  | some d => .allowed d

/-- A cookie written onto a response, with the attributes set by auth.py. -/
structure Cookie where
  key : List Char
  value : List Char
  httponly : Bool
  samesite : List Char
  max_age : Nat
deriving DecidableEq, Repr

/-- A redirect response carrying cookies. -/
structure Response where
  url : List Char
  status_code : Nat
  cookies : List Cookie
deriving DecidableEq, Repr

/-- auth.py line 104: the max_age written on the session cookie. -/
def sessionCookieMaxAge : Nat := ADMIN_SESSION_EXPIRE_MINUTES * 60

/-- auth.py lines 96-106: set_session_cookie — issues a token for the admin
and appends the session cookie (http-only, same-site lax, max-age equal to
the configured session lifetime) to the response. -/
def set_session_cookie (mac : List Char → List Char)
    (response : Response) (admin : Admin) (now : Nat) : Response :=
  let token := create_session_token mac admin.id admin.username now
  { response with
    cookies := response.cookies ++
      [{ key := SESSION_COOKIE_NAME, value := token, httponly := true,
         samesite := ("lax").data, max_age := sessionCookieMaxAge }] }

/- ## Admin router (routers/admin.py) -/

/-- The dashboard url. -/
def ADMIN_URL : List Char := ("/admin").data

/-- The error message rendered on a failed login. -/
def INVALID_CREDENTIALS_MSG : List Char := ("Identifiants invalides").data

/-- Outcome of POST /admin/login: either the login template re-rendered with
an error string, or a 303 redirect to /admin carrying the session cookie. -/
inductive LoginResult where
  | errorPage (error : List Char)
  | success (resp : Response)
deriving DecidableEq, Repr

/-- routers/admin.py lines 56-73: login_submit — authenticate; on failure
render the login template with the fixed error message, on success redirect
to /admin with the session cookie attached. -/
def login_submit (digest : List Char → List Char → List Char)
    (mac : List Char → List Char) (db : List Admin)
    (username password : List Char) (now : Nat) : LoginResult :=
  match authenticate_admin digest db username password with
  | none => .errorPage INVALID_CREDENTIALS_MSG
  | some admin =>
    let response : Response := { url := ADMIN_URL, status_code := 303, cookies := [] }
    .success (set_session_cookie mac response admin now)

/-- Outcome of GET /admin/login: a 303 redirect to the dashboard when already
logged in, else the rendered login form. -/
inductive LoginPageResult where
  | redirectDashboard (url : List Char) (status : Nat)
  | loginForm
deriving DecidableEq, Repr

/-- routers/admin.py lines 43-53: login_page — redirect to /admin when
get_current_admin returns a session, else render the login template. -/
def login_page (mac : List Char → List Char)
    (req : Request) (now : Nat) : LoginPageResult :=
  match get_current_admin mac req now with
  | some _ => .redirectDashboard ADMIN_URL 303
  | none => .loginForm

/- ## Codec lemmas -/

/-- Every character of a unary numeral is the letter I. -/
theorem eq_I_of_mem_unary {a : Char} {n : Nat} (h : a ∈ unary n) : a = 'I' :=
  List.eq_of_mem_replicate h

/-- The serialised value contains no dot, so the value-signature separator
is unambiguous. -/
theorem sep_not_mem_encodeStr (s : List Char) : SEP ∉ encodeStr s := by
  induction s with
  | nil => simp [encodeStr]
  | cons c cs ih =>
    intro h
    simp only [encodeStr, List.mem_append, List.mem_cons] at h
    rcases h with h | h | h
    · exact absurd (eq_I_of_mem_unary h) (by decide)
    · exact absurd h (by decide)
    · exact ih h

/-- The full signing value is dot-free. -/
theorem sep_not_mem_encodePayload (d : SessionData) (ts : Nat) :
    SEP ∉ encodePayload d ts := by
  intro h
  unfold encodePayload at h
  rcases List.mem_append.1 h with h | h
  · rcases List.mem_append.1 h with h | h
    · exact absurd (eq_I_of_mem_unary h) (by decide)
    · rcases List.mem_cons.1 h with h | h
      · exact absurd h (by decide)
      · exact sep_not_mem_encodeStr _ h
  · rcases List.mem_cons.1 h with h | h
    · exact absurd h (by decide)
    · exact absurd (eq_I_of_mem_unary h) (by decide)

/-- A dot-free string has no value-signature split. -/
theorem rsplitSep_eq_none {s : List Char} (h : SEP ∉ s) : rsplitSep s = none := by
  induction s with
  | nil => rfl
  | cons c cs ih =>
    simp only [List.mem_cons, not_or] at h
    have hcs : ¬c = SEP := fun hc => h.1 hc.symm
    simp [rsplitSep, ih h.2, hcs]

/-- Splitting at the last dot of value-dot-signature recovers the pair, as
long as the signature part is dot-free. -/
theorem rsplitSep_append {g : List Char} (v : List Char) (h : SEP ∉ g) :
    rsplitSep (v ++ SEP :: g) = some (v, g) := by
  induction v with
  | nil => simp [rsplitSep, rsplitSep_eq_none h]
  | cons c v ih => simp [rsplitSep, ih]

/-- Consuming a unary prefix adds its length to whatever the rest yields. -/
theorem takeUnary_unary_append (n : Nat) (x : List Char) :
    takeUnary (unary n ++ x) = ((takeUnary x).1 + n, (takeUnary x).2) := by
  induction n with
  | zero => simp [unary]
  | succ m ih =>
    have h1 : unary (m + 1) = 'I' :: unary m := List.replicate_succ _ _
    have h2 : takeUnary ('I' :: (unary m ++ x)) =
        ((takeUnary (unary m ++ x)).1 + 1, (takeUnary (unary m ++ x)).2) := by
      simp [takeUnary]
    rw [h1, List.cons_append, h2, ih]
    simp [Nat.add_assoc]

/-- `takeUnary` on a unary numeral followed by a non-I character. -/
theorem takeUnary_unary_cons (n : Nat) {c : Char} (r : List Char) (h : c ≠ 'I') :
    takeUnary (unary n ++ c :: r) = (n, c :: r) := by
  rw [takeUnary_unary_append]
  simp [takeUnary, h]

/-- Reduction of `parseStrAux` through a computed `takeUnary` result. -/
theorem parseStrAux_of_takeUnary {cs r : List Char} {n : Nat} {c : Char}
    (fuel : Nat) (h : takeUnary cs = (n, c :: r)) :
    parseStrAux (fuel + 1) cs =
      (if c = 'c' then
        match parseStrAux fuel r with
        | some (s, rest) => some (Char.ofNat n :: s, rest)
        | none => none
      else if c = 't' then (if n = 0 then some ([], r) else none)
      else none) := by
  cases cs with
  | nil => simp [takeUnary] at h
  | cons a cs =>
    simp only [parseStrAux]
    rw [h]

/-- Round trip of the character-group serialisation, given enough fuel. -/
theorem parseStrAux_encodeStr (s : List Char) :
    ∀ (fuel : Nat) (tail : List Char), s.length + 1 ≤ fuel →
      parseStrAux fuel (encodeStr s ++ 't' :: tail) = some (s, tail) := by
  induction s with
  | nil =>
    intro fuel tail hf
    cases fuel with
    | zero => omega
    | succ f =>
      have h0 : takeUnary ('t' :: tail) = (0, 't' :: tail) := by
        simp [takeUnary]
      simp only [encodeStr, List.nil_append]
      rw [parseStrAux_of_takeUnary f h0]
      simp
  | cons c s ih =>
    intro fuel tail hf
    cases fuel with
    | zero => simp at hf
    | succ f =>
      have hsplit : encodeStr (c :: s) ++ 't' :: tail =
          unary c.toNat ++ 'c' :: (encodeStr s ++ 't' :: tail) := by
        simp [encodeStr]
      rw [hsplit, parseStrAux_of_takeUnary f
        (takeUnary_unary_cons c.toNat _ (by decide))]
      rw [ih f tail (by simpa using hf)]
      simp

/-- The serialisation of a string is at least as long as the string. -/
theorem length_le_length_encodeStr (s : List Char) :
    s.length ≤ (encodeStr s).length := by
  induction s with
  | nil => simp [encodeStr]
  | cons c s ih => simp [encodeStr]; omega

/-- Round trip of the payload serialisation. -/
theorem parsePayload_encodePayload (d : SessionData) (ts : Nat) :
    parsePayload (encodePayload d ts) = some (d, ts) := by
  have h1 : takeUnary (encodePayload d ts) =
      (d.admin_id, 'u' :: (encodeStr d.username ++ 't' :: unary ts)) := by
    simpa [encodePayload] using
      takeUnary_unary_cons d.admin_id (encodeStr d.username ++ 't' :: unary ts)
        (c := 'u') (by decide)
  have hfuel : d.username.length + 1 ≤
      (encodeStr d.username ++ 't' :: unary ts).length + 1 := by
    have := length_le_length_encodeStr d.username
    simp only [List.length_append, List.length_cons]
    omega
  simp only [parsePayload, h1]
  simp only [if_pos rfl, parseStrAux_encodeStr d.username _ _ hfuel]
  have h2 : takeUnary (unary ts) = (ts, []) := by
    have := takeUnary_unary_append ts []
    simpa [takeUnary] using this
  simp [h2]

/-- Verification of a freshly issued token: the signature always matches,
the payload decodes to what was signed, and only the age check remains. -/
theorem verifyToken_create (mac : List Char → List Char)
    (hdot : ∀ v, SEP ∉ mac v) (aid : Nat) (un : List Char)
    (ts ma now : Nat) :
    verifyToken mac ma (create_session_token mac aid un ts) now =
      (if now - ts > ma then .expired else .ok ⟨aid, un⟩) := by
  unfold create_session_token verifyToken
  rw [rsplitSep_append _ (hdot _)]
  simp [parsePayload_encodePayload]

/- ## Login helper lemmas -/

/-- The three causes of a failed login attempt: unknown username, inactive
administrator, or password mismatch (auth.py lines 60-66). -/
def loginFails (digest : List Char → List Char → List Char)
    (db : List Admin) (u p : List Char) : Prop :=
  findAdmin db u = none ∨
  (∃ a, findAdmin db u = some a ∧ a.is_active = false) ∨
  (∃ a, findAdmin db u = some a ∧ a.is_active = true ∧
    verify_password digest p a.password_hash = false)

/-- Each failure cause makes authenticate_admin return None. -/
theorem authenticate_admin_eq_none_of_loginFails
    {digest : List Char → List Char → List Char} {db : List Admin}
    {u p : List Char} (h : loginFails digest db u p) :
    authenticate_admin digest db u p = none := by
  unfold authenticate_admin
  rcases h with h | ⟨a, ha, hina⟩ | ⟨a, ha, hact, hpw⟩
  · rw [h]
  · rw [ha]; simp [hina]
  · rw [ha]; simp [hact, hpw]

/- ## Claim theorems -/

/-- C3: token verification distinguishes its two failure kinds internally —
a correctly signed but over-age token yields the Expired outcome, a token
whose signature does not match yields the BadSignature outcome, the two
outcomes are distinct values, and yet verify_session_token (the caller-facing
function) collapses both to None. -/
theorem C3_failure_kinds_distinguishable
    (mac : List Char → List Char) (hdot : ∀ v, SEP ∉ mac v)
    (aid ts now : Nat) (un token value sig : List Char)
    (hexp : now - ts > sessionTokenMaxAge)
    (hsplit : rsplitSep token = some (value, sig))
    (hbad : sig ≠ mac value) :
    verifyToken mac sessionTokenMaxAge (create_session_token mac aid un ts) now =
      .expired ∧
    verifyToken mac sessionTokenMaxAge token now = .badSignature ∧
    VerifyResult.expired ≠ VerifyResult.badSignature ∧
    verify_session_token mac (create_session_token mac aid un ts) now = none ∧
    verify_session_token mac token now = none := by
  have e1 : verifyToken mac sessionTokenMaxAge
      (create_session_token mac aid un ts) now = .expired := by
    rw [verifyToken_create mac hdot, if_pos hexp]
  have e2 : verifyToken mac sessionTokenMaxAge token now = .badSignature := by
    unfold verifyToken
    rw [hsplit]
    simp [hbad]
  refine ⟨e1, e2, by decide, ?_, ?_⟩
  · unfold verify_session_token; rw [e1]
  · unfold verify_session_token; rw [e2]

/-- C4: for every plaintext password and every malformed hash string (one the
salted-hash parser rejects), verify_password returns false; the model is a
total Bool-valued function, so no exception can be raised. -/
theorem C4_verify_password_malformed
    (digest : List Char → List Char → List Char) (p h : List Char)
    (hmal : parseBcryptHash h = none) :
    verify_password digest p h = false := by
  unfold verify_password checkpw
  rw [hmal]

/-- C5: an inactive administrator is rejected by authenticate_admin even when
the submitted password matches the stored hash, and the login route then
renders the error page, producing no session cookie. -/
theorem C5_inactive_admin_rejected
    (digest : List Char → List Char → List Char)
    (mac : List Char → List Char) (db : List Admin)
    (u p : List Char) (admin : Admin) (now : Nat)
    (hfind : findAdmin db u = some admin)
    (hinact : admin.is_active = false)
    (hpw : verify_password digest p admin.password_hash = true) :
    authenticate_admin digest db u p = none ∧
    login_submit digest mac db u p now = .errorPage INVALID_CREDENTIALS_MSG := by
  have h1 : authenticate_admin digest db u p = none := by
    unfold authenticate_admin
    rw [hfind]
    simp [hinact]
  refine ⟨h1, ?_⟩
  unfold login_submit
  rw [h1]

/-- C6: any two failing login attempts — unknown username, inactive
administrator, or password mismatch, in any combination, over any stores,
credentials, hashers, signers and times — produce identical externally
visible responses. -/
theorem C6_failures_indistinguishable
    (digest digest2 : List Char → List Char → List Char)
    (mac mac2 : List Char → List Char) (db db2 : List Admin)
    (u p u2 p2 : List Char) (now now2 : Nat)
    (h1 : loginFails digest db u p) (h2 : loginFails digest2 db2 u2 p2) :
    login_submit digest mac db u p now = login_submit digest2 mac2 db2 u2 p2 now2 := by
  unfold login_submit
  rw [authenticate_admin_eq_none_of_loginFails h1,
    authenticate_admin_eq_none_of_loginFails h2]

/-- C7: a correctly signed token is rejected as Expired one second past
issuance_time + max_age_seconds, and at exactly issuance_time +
max_age_seconds every token is uniformly accepted (the boundary is
exclusive and consistent). -/
theorem C7_expiry_boundary
    (mac : List Char → List Char) (hdot : ∀ v, SEP ∉ mac v)
    (aid ts : Nat) (un : List Char) :
    verifyToken mac sessionTokenMaxAge (create_session_token mac aid un ts)
      (ts + sessionTokenMaxAge + 1) = .expired ∧
    verifyToken mac sessionTokenMaxAge (create_session_token mac aid un ts)
      (ts + sessionTokenMaxAge) = .ok ⟨aid, un⟩ := by
  constructor
  · rw [verifyToken_create mac hdot, if_pos (by omega)]
  · rw [verifyToken_create mac hdot, if_neg (by omega)]

/-- C9: the max-age written on the session cookie by set_session_cookie
equals the max_age verify_session_token enforces on the token, both being
ADMIN_SESSION_EXPIRE_MINUTES * 60 seconds. -/
theorem C9_cookie_token_lifetime_lockstep
    (mac : List Char → List Char) (resp : Response) (admin : Admin) (now : Nat) :
    ∃ c : Cookie,
      (set_session_cookie mac resp admin now).cookies = resp.cookies ++ [c] ∧
      c.max_age = sessionCookieMaxAge ∧
      sessionCookieMaxAge = sessionTokenMaxAge ∧
      sessionTokenMaxAge = ADMIN_SESSION_EXPIRE_MINUTES * 60 :=
  ⟨_, rfl, rfl, rfl, rfl⟩

/-- C1: for an active administrator whose stored hash verifies the submitted
password, login (authenticate_admin, then the login route attaching the
cookie via set_session_cookie) succeeds, and get_current_admin on a request
carrying that cookie before the session max-age elapses returns exactly that
admin's id and username. -/
theorem C1_login_then_authorize
    (digest : List Char → List Char → List Char)
    (mac : List Char → List Char) (hdot : ∀ v, SEP ∉ mac v)
    (db : List Admin) (u p : List Char) (admin : Admin) (ts now : Nat)
    (hfind : findAdmin db u = some admin)
    (hact : admin.is_active = true)
    (hpw : verify_password digest p admin.password_hash = true)
    (hfresh : now - ts ≤ sessionTokenMaxAge) :
    authenticate_admin digest db u p = some admin ∧
    ∃ tok,
      login_submit digest mac db u p ts = .success
        { url := ADMIN_URL, status_code := 303,
          cookies := [{ key := SESSION_COOKIE_NAME, value := tok,
                        httponly := true, samesite := ("lax").data,
                        max_age := sessionCookieMaxAge }] } ∧
      get_current_admin mac { cookies := [(SESSION_COOKIE_NAME, tok)] } now =
        some ⟨admin.id, admin.username⟩ := by
  have hauth : authenticate_admin digest db u p = some admin := by
    unfold authenticate_admin
    rw [hfind]
    simp [hact, hpw]
  refine ⟨hauth, create_session_token mac admin.id admin.username ts, ?_, ?_⟩
  · unfold login_submit
    rw [hauth]
    rfl
  · have hget : cookiesGet [(SESSION_COOKIE_NAME,
        create_session_token mac admin.id admin.username ts)]
        SESSION_COOKIE_NAME =
        some (create_session_token mac admin.id admin.username ts) := by
      unfold cookiesGet
      rw [List.find?_cons_of_pos _ (by simp)]
    have hne : create_session_token mac admin.id admin.username ts ≠ [] := by
      unfold create_session_token
      simp
    unfold get_current_admin
    rw [hget]
    dsimp only
    rw [if_neg hne]
    unfold verify_session_token
    rw [verifyToken_create mac hdot, if_neg (by omega)]

/-- C8: the authentication guard denies a request whose cookies lack the
session cookie, or whose token fails signature verification, or whose token
is past its maximum age; it admits a session identity exactly when the
cookie is present, non-empty, and its token verifies as unexpired. -/
theorem C8_guard_decision
    (mac : List Char → List Char) (req : Request) (now : Nat) :
    (cookiesGet req.cookies SESSION_COOKIE_NAME = none →
      require_admin mac req now = .denied 303 LOGIN_URL) ∧
    (∀ tok, cookiesGet req.cookies SESSION_COOKIE_NAME = some tok →
      verifyToken mac sessionTokenMaxAge tok now = .badSignature →
      require_admin mac req now = .denied 303 LOGIN_URL) ∧
    (∀ tok, cookiesGet req.cookies SESSION_COOKIE_NAME = some tok →
      verifyToken mac sessionTokenMaxAge tok now = .expired →
      require_admin mac req now = .denied 303 LOGIN_URL) ∧
    (∀ d, require_admin mac req now = .allowed d ↔
      ∃ tok, cookiesGet req.cookies SESSION_COOKIE_NAME = some tok ∧
        tok ≠ [] ∧ verifyToken mac sessionTokenMaxAge tok now = .ok d) := by
  refine ⟨?_, ?_, ?_, ?_⟩
  · intro h
    unfold require_admin get_current_admin
    rw [h]
  · intro tok h hbad
    unfold require_admin get_current_admin
    rw [h]
    dsimp only
    by_cases htok : tok = []
    · simp [htok]
    · rw [if_neg htok]
      unfold verify_session_token
      rw [hbad]
  · intro tok h hexp
    unfold require_admin get_current_admin
    rw [h]
    dsimp only
    by_cases htok : tok = []
    · simp [htok]
    · rw [if_neg htok]
      unfold verify_session_token
      rw [hexp]
  · intro d
    constructor
    · intro h
      unfold require_admin get_current_admin at h
      cases hc : cookiesGet req.cookies SESSION_COOKIE_NAME with
      | none => rw [hc] at h; simp at h
      | some tok =>
        rw [hc] at h
        dsimp only at h
        by_cases htok : tok = []
        · rw [if_pos htok] at h; simp at h
        · rw [if_neg htok] at h
          unfold verify_session_token at h
          cases hv : verifyToken mac sessionTokenMaxAge tok now with
          | ok d2 =>
            rw [hv] at h
            dsimp only at h
            simp only [AuthOutcome.allowed.injEq] at h
            exact ⟨tok, rfl, htok, by rw [hv, h]⟩
          | badSignature => rw [hv] at h; simp at h
          | expired => rw [hv] at h; simp at h
    · rintro ⟨tok, hc, htok, hv⟩
      unfold require_admin get_current_admin verify_session_token
      rw [hc]
      dsimp only
      rw [if_neg htok, hv]

/-- C10: a GET of the login page carrying a valid, non-expired session cookie
is answered with a 303 redirect to the dashboard, and the login form is
rendered exactly when the request is unauthenticated. -/
theorem C10_login_page_redirect
    (mac : List Char → List Char) (req : Request) (now : Nat) :
    (∀ tok d, cookiesGet req.cookies SESSION_COOKIE_NAME = some tok →
      tok ≠ [] → verifyToken mac sessionTokenMaxAge tok now = .ok d →
      login_page mac req now = .redirectDashboard ADMIN_URL 303) ∧
    (get_current_admin mac req now = none →
      login_page mac req now = .loginForm) := by
  constructor
  · intro tok d hc htok hv
    unfold login_page get_current_admin verify_session_token
    rw [hc]
    dsimp only
    rw [if_neg htok, hv]
  · intro h
    unfold login_page
    rw [h]

/- ## Tamper-detection lemmas -/

/-- Bridge from an optional-indexing fact to a positional-indexing fact. -/
theorem get_eq_of_get? {l : List Char} {i : Nat} {a : Char} (hi : i < l.length)
    (h : l[i]? = some a) : l.get ⟨i, hi⟩ = a := by
  have h2 : l[i]? = some (l.get ⟨i, hi⟩) := by
    simp [List.getElem?_eq_getElem hi]
  exact Option.some_inj.1 (h2.symm.trans h)

/-- Setting a position of a list to a character different from the one
stored there changes the list. -/
theorem set_ne_of_ne {l : List Char} {i : Nat} {c : Char} (hi : i < l.length)
    (hc : c ≠ l.get ⟨i, hi⟩) : l.set i c ≠ l := by
  intro he
  have h1 : (l.set i c)[i]? = some c := List.getElem?_set_self hi
  rw [he] at h1
  exact hc (get_eq_of_get? hi h1).symm

/-- Core tamper-detection property: over an ideal mac (dot-free output,
constant output length, no collision at the signed value), changing any
single character of a signed token value-dot-mac makes verification fail as
a signature error, for every max-age and every verification time. -/
theorem tamper_badSignature (mac : List Char → List Char) (v : List Char)
    (hdot : ∀ x, SEP ∉ mac x) (hvdot : SEP ∉ v)
    (hlen : ∀ x, (mac x).length = (mac v).length)
    (hinj : ∀ x, x ≠ v → mac x ≠ mac v)
    (max_age now i : Nat) (c : Char)
    (hi : i < (v ++ SEP :: mac v).length)
    (hc : c ≠ (v ++ SEP :: mac v).get ⟨i, hi⟩) :
    verifyToken mac max_age ((v ++ SEP :: mac v).set i c) now = .badSignature := by
  rcases Nat.lt_trichotomy i v.length with hlt | heq | hgt
  · -- the modified character lies in the signed value
    have hset : (v ++ SEP :: mac v).set i c = v.set i c ++ SEP :: mac v :=
      List.set_append_left i c hlt
    have horig : (v ++ SEP :: mac v).get ⟨i, hi⟩ = v.get ⟨i, hlt⟩ :=
      get_eq_of_get? hi (by
        rw [List.getElem?_append_left hlt]
        simp [List.getElem?_eq_getElem hlt])
    have hne : v.set i c ≠ v :=
      set_ne_of_ne hlt (fun hcc => hc (hcc.trans horig.symm))
    rw [hset]
    unfold verifyToken
    rw [rsplitSep_append _ (hdot v)]
    dsimp only
    rw [if_neg (fun hgg => hinj (v.set i c) hne hgg.symm)]
  · -- the modified character is the separator itself
    subst heq
    have horig : (v ++ SEP :: mac v).get ⟨v.length, hi⟩ = SEP :=
      get_eq_of_get? hi (by
        rw [List.getElem?_append_right (Nat.le_refl _)]
        simp)
    have hcsep : c ≠ SEP := fun hcc => hc (hcc.trans horig.symm)
    have hset : (v ++ SEP :: mac v).set v.length c = v ++ c :: mac v := by
      rw [List.set_append_right _ c (Nat.le_refl _)]
      simp
    have hnomem : SEP ∉ v ++ c :: mac v := by
      intro hm
      rcases List.mem_append.1 hm with hm | hm
      · exact hvdot hm
      rcases List.mem_cons.1 hm with hm | hm
      · exact hcsep hm.symm
      · exact hdot v hm
    rw [hset]
    unfold verifyToken
    rw [rsplitSep_eq_none hnomem]
  · -- the modified character lies in the signature
    obtain ⟨j, rfl⟩ : ∃ j, i = v.length + 1 + j :=
      ⟨i - v.length - 1, by omega⟩
    have hjlt : j < (mac v).length := by
      have := hi
      simp only [List.length_append, List.length_cons] at this
      omega
    have hset : (v ++ SEP :: mac v).set (v.length + 1 + j) c =
        v ++ SEP :: (mac v).set j c := by
      rw [List.set_append_right _ c (by omega)]
      have hidx : v.length + 1 + j - v.length = j + 1 := by omega
      rw [hidx]
      rfl
    have horig : (v ++ SEP :: mac v).get ⟨v.length + 1 + j, hi⟩ =
        (mac v).get ⟨j, hjlt⟩ :=
      get_eq_of_get? hi (by
        rw [List.getElem?_append_right (by omega)]
        have hidx : v.length + 1 + j - v.length = j + 1 := by omega
        rw [hidx, List.getElem?_cons_succ]
        simp [List.getElem?_eq_getElem hjlt])
    rw [hset]
    by_cases hcs : c = SEP
    · subst hcs
      have hdec : (mac v).set j SEP =
          (mac v).take j ++ SEP :: (mac v).drop (j + 1) :=
        List.set_eq_take_cons_drop _ hjlt
      have hassoc : v ++ SEP :: ((mac v).take j ++ SEP :: (mac v).drop (j + 1)) =
          (v ++ SEP :: (mac v).take j) ++ SEP :: (mac v).drop (j + 1) := by
        simp
      rw [hdec, hassoc]
      unfold verifyToken
      rw [rsplitSep_append _ (fun hm => hdot v (List.mem_of_mem_drop hm))]
      dsimp only
      rw [if_neg (by
        intro hgg
        have h1 := congrArg List.length hgg
        rw [List.length_drop, hlen (v ++ SEP :: (mac v).take j)] at h1
        omega)]
    · have hgdot : SEP ∉ (mac v).set j c := by
        intro hm
        rcases List.mem_or_eq_of_mem_set hm with hm | hm
        · exact hdot v hm
        · exact hcs hm.symm
      unfold verifyToken
      rw [rsplitSep_append _ hgdot]
      dsimp only
      rw [if_neg (by
        intro hgg
        have h1 : ((mac v).set j c)[j]? = some c := List.getElem?_set_self hjlt
        rw [hgg] at h1
        exact hc ((get_eq_of_get? hjlt h1).symm.trans horig.symm))]

/-- C2: for every token produced by create_session_token and every
single-character modification of it, token verification rejects the modified
string as a signature failure (hence never returns a successfully-decoded
payload different from the one signed), and verify_session_token returns
None for it. The mac is assumed ideal at the signed value: dot-free output,
constant output length, and no collision with the signed value. -/
theorem C2_single_char_tamper_rejected
    (mac : List Char → List Char) (aid ts : Nat) (un : List Char)
    (hdot : ∀ x, SEP ∉ mac x)
    (hlen : ∀ x, (mac x).length = (mac (encodePayload ⟨aid, un⟩ ts)).length)
    (hinj : ∀ x, x ≠ encodePayload ⟨aid, un⟩ ts →
      mac x ≠ mac (encodePayload ⟨aid, un⟩ ts))
    (max_age now i : Nat) (c : Char)
    (hi : i < (create_session_token mac aid un ts).length)
    (hc : c ≠ (create_session_token mac aid un ts).get ⟨i, hi⟩) :
    verifyToken mac max_age
      ((create_session_token mac aid un ts).set i c) now = .badSignature ∧
    verify_session_token mac
      ((create_session_token mac aid un ts).set i c) now = none := by
  have h1 : verifyToken mac max_age
      ((create_session_token mac aid un ts).set i c) now = .badSignature :=
    tamper_badSignature mac (encodePayload ⟨aid, un⟩ ts) hdot
      (sep_not_mem_encodePayload _ _) hlen hinj max_age now i c hi hc
  have h2 : verifyToken mac sessionTokenMaxAge
      ((create_session_token mac aid un ts).set i c) now = .badSignature :=
    tamper_badSignature mac (encodePayload ⟨aid, un⟩ ts) hdot
      (sep_not_mem_encodePayload _ _) hlen hinj sessionTokenMaxAge now i c hi hc
  refine ⟨h1, ?_⟩
  unfold verify_session_token
  rw [h2]

/- ## Concrete instances used by the witnesses -/

/-- A concrete bcrypt digest core for witnesses. -/
def digestW : List Char → List Char → List Char := fun s p => s ++ p

/-- A concrete constant signature function for witnesses: dot-free output. -/
def macW : List Char → List Char := fun _ => ['G']

/-- A concrete active administrator whose password is the letter q. -/
def adminW : Admin := ⟨1, ['a'], hashpw digestW ['s'] ['q'], true⟩

/-- A concrete inactive administrator whose password is the letter q. -/
def adminInactiveW : Admin := ⟨2, ['b'], hashpw digestW ['s'] ['q'], false⟩

/-- A concrete signature function that distinguishes the one signed value,
has constant output length and dot-free output. -/
def macW2 : List Char → List Char :=
  fun x => if x = encodePayload ⟨1, []⟩ 0 then ['A', 'A'] else ['A', 'B']

/-- The constant witness signature function is dot-free. -/
theorem macW_sep_free : ∀ v, SEP ∉ macW v := by
  intro v
  show SEP ∉ ['G']
  decide

/- ## Witnesses -/

/-- Witness for C1 at a concrete store, credentials and times. -/
theorem C1_witness :
    authenticate_admin digestW [adminW] ['a'] ['q'] = some adminW ∧
    ∃ tok,
      login_submit digestW macW [adminW] ['a'] ['q'] 0 = .success
        { url := ADMIN_URL, status_code := 303,
          cookies := [{ key := SESSION_COOKIE_NAME, value := tok,
                        httponly := true, samesite := ("lax").data,
                        max_age := sessionCookieMaxAge }] } ∧
      get_current_admin macW { cookies := [(SESSION_COOKIE_NAME, tok)] } 5 =
        some ⟨adminW.id, adminW.username⟩ :=
  C1_login_then_authorize digestW macW macW_sep_free [adminW]
    ['a'] ['q'] adminW 0 5 (by decide) (by decide) (by decide) (by decide)

/-- Witness for C2: flipping the first character of a concrete issued token
to X is rejected as a signature failure. -/
theorem C2_witness :
    verifyToken macW2 28800
      ((create_session_token macW2 1 [] 0).set 0 'X') 7 = .badSignature ∧
    verify_session_token macW2
      ((create_session_token macW2 1 [] 0).set 0 'X') 7 = none :=
  C2_single_char_tamper_rejected macW2 1 0 []
    (by intro x; by_cases h : x = encodePayload ⟨1, []⟩ 0 <;>
      simp [macW2, h] <;> decide)
    (by intro x; by_cases h : x = encodePayload ⟨1, []⟩ 0 <;> simp [macW2, h])
    (by intro x hx; simp [macW2, hx])
    28800 7 0 'X' (by decide) (by decide)

/-- Witness for C3 at a concrete expired token and a concrete tampered one. -/
theorem C3_witness :
    verifyToken macW sessionTokenMaxAge (create_session_token macW 1 [] 0)
      28801 = .expired ∧
    verifyToken macW sessionTokenMaxAge (("v.X").data) 28801 = .badSignature :=
  ⟨(C3_failure_kinds_distinguishable macW macW_sep_free 1 0 28801 []
      (("v.X").data) (("v").data) (("X").data)
      (by decide) (by decide) (by decide)).1,
   (C3_failure_kinds_distinguishable macW macW_sep_free 1 0 28801 []
      (("v.X").data) (("v").data) (("X").data)
      (by decide) (by decide) (by decide)).2.1⟩

/-- Witness for C4 at a concrete malformed hash. -/
theorem C4_witness :
    parseBcryptHash (("zz").data) = none ∧
    verify_password digestW (("x").data) (("zz").data) = false :=
  ⟨by decide, C4_verify_password_malformed digestW (("x").data) (("zz").data)
    (by decide)⟩

/-- Witness for C5 at a concrete inactive administrator with the right
password. -/
theorem C5_witness :
    authenticate_admin digestW [adminInactiveW] ['b'] ['q'] = none ∧
    login_submit digestW macW [adminInactiveW] ['b'] ['q'] 0 =
      .errorPage INVALID_CREDENTIALS_MSG :=
  C5_inactive_admin_rejected digestW macW [adminInactiveW] ['b'] ['q']
    adminInactiveW 0 (by decide) (by decide) (by decide)

/-- Witness for C6: an unknown-username failure and an inactive-administrator
failure produce the same response. -/
theorem C6_witness :
    login_submit digestW macW [] ['u'] ['p'] 0 =
      login_submit digestW macW [adminInactiveW] ['b'] ['q'] 1 :=
  C6_failures_indistinguishable digestW digestW macW macW [] [adminInactiveW]
    ['u'] ['p'] ['b'] ['q'] 0 1
    (Or.inl (by decide))
    (Or.inr (Or.inl ⟨adminInactiveW, by decide, by decide⟩))

/-- Witness for C7 at a concrete token issued at time zero. -/
theorem C7_witness :
    verifyToken macW sessionTokenMaxAge (create_session_token macW 1 [] 0)
      (0 + sessionTokenMaxAge + 1) = .expired ∧
    verifyToken macW sessionTokenMaxAge (create_session_token macW 1 [] 0)
      (0 + sessionTokenMaxAge) = .ok ⟨1, []⟩ :=
  C7_expiry_boundary macW macW_sep_free 1 0 []

/-- Witness for C8: a cookieless request is denied and a request with a fresh
token is allowed. -/
theorem C8_witness :
    require_admin macW { cookies := [] } 0 = .denied 303 LOGIN_URL ∧
    require_admin macW
      { cookies := [(SESSION_COOKIE_NAME, create_session_token macW 1 [] 0)] }
      5 = .allowed ⟨1, []⟩ :=
  ⟨(C8_guard_decision macW { cookies := [] } 0).1 (by decide),
   ((C8_guard_decision macW
      { cookies := [(SESSION_COOKIE_NAME, create_session_token macW 1 [] 0)] }
      5).2.2.2 ⟨1, []⟩).2
    ⟨create_session_token macW 1 [] 0, by decide, by decide, by decide⟩⟩

/-- Witness for C10: an authenticated request to the login page is redirected
to the dashboard; a cookieless one gets the form. -/
theorem C10_witness :
    login_page macW
      { cookies := [(SESSION_COOKIE_NAME, create_session_token macW 1 [] 0)] }
      5 = .redirectDashboard ADMIN_URL 303 ∧
    login_page macW { cookies := [] } 5 = .loginForm :=
  ⟨(C10_login_page_redirect macW
      { cookies := [(SESSION_COOKIE_NAME, create_session_token macW 1 [] 0)] }
      5).1 (create_session_token macW 1 [] 0) ⟨1, []⟩
      (by decide) (by decide) (by decide),
   (C10_login_page_redirect macW { cookies := [] } 5).2 (by decide)⟩
